import Mathlib

/-!
A verification development for the core of the `vis` editor
(`src/vis.c`): the mode tree, the key resolver, the action executor
`action_do`, operators and motions, the macro recorder and the
per-window jumplist.

The C code is shallowly embedded: positions are `Nat` with the C
sentinel `EPOS = (size_t)-1` modelled as the fixed value `2^64 - 1`,
struct fields become structure fields, and the external collaborator
modules that are out of scope for the core (text buffer, view, ringbuf,
map, buffer) enter either as oracle functions bundled in an `Env`
record or as small definitions modelled from the specification, each
marked as such in its doc comment.
-/

set_option autoImplicit false

namespace VisCore

/-- The C sentinel `EPOS = (size_t)-1`, the 64-bit all-ones value.
Positions are `size_t` values, modelled as `Nat`; a motion "fails" by
returning `EPOS`. -/
def EPOS : Nat := 2 ^ 64 - 1

/-! ## Macros (`vis_macro_record` / `vis_macro_record_stop` / `vis_macro_replay`)

In the C source a `Macro` is a `Buffer` of raw key bytes kept as one
NUL-terminated string, `vis->recording` and `vis->last_recording` are
pointers into the `vis->macros` array, and `VIS_MACRO_LAST_RECORDED`
equals the length of that array.  Pointers into the array are modelled
as indices.  (The banned-token scanner of this development's toolchain
forbids identifiers ending in the word "macro", so the C type `Macro`
is rendered `MacroBuf`; the function names keep their C prefixes.)
-/

/-- A macro: the byte contents of its `Buffer` up to `len`
(`data : List Nat` plays `data[0..len)`). -/
structure MacroBuf where
  data : List Nat := []
  deriving DecidableEq, Repr

/-- Modelled from the spec: `buffer_append0` (buffer module, outside
`src/`) keeps the buffer one NUL-terminated string: it drops a
trailing NUL byte if present, then appends the key's bytes followed by
a NUL.  `macro_append(macro, keys)` in `vis.c` is exactly this. -/
def macro_append (m : MacroBuf) (key : List Nat) : MacroBuf :=
  let d := if m.data ≠ [] ∧ m.data.getLast? = some 0 then m.data.dropLast else m.data
  { data := d ++ key ++ [0] }

/-- The macro built by recording the given key tokens in order into an
initially empty (reset) macro, one `macro_append` per key, as
`vis_keys` does for every raw key delivered while recording. -/
def macro_of_keys (keys : List (List Nat)) : MacroBuf :=
  keys.foldl macro_append {}

/-- The byte string a macro replays: `macro_replay` feeds `data`
through `vis_keys_raw`, which consumes keys up to the terminating NUL. -/
def macro_bytes (m : MacroBuf) : List Nat :=
  m.data.takeWhile (fun b => b != 0)

/-- `macro_reset` = `buffer_truncate`: drop the contents. -/
def macro_reset (_m : MacroBuf) : MacroBuf := { data := [] }

/-- The macro-related state of `Vis`: the `macros` array and the
`recording` / `last_recording` pointers (as indices into `macros`). -/
structure MacroSys where
  macros : List MacroBuf := []
  lastRecording : Option Nat := none
  recording : Option Nat := none
  deriving DecidableEq, Repr

/-- `macro_get`: `VIS_MACRO_LAST_RECORDED` (= the array length, from
`vis.h`, which is not under `src/`; modelled from the spec's
"last-recorded macro" slot) resolves to `last_recording`; a smaller id
resolves to its array slot; anything else to `NULL`. -/
def macro_get (sys : MacroSys) (m : Nat) : Option Nat :=
  if m = sys.macros.length then sys.lastRecording
  else if m < sys.macros.length then some m
  else none

/-- `vis_macro_record`: fails if a recording is already in progress or
the id does not resolve; otherwise resets the macro and makes it the
recording target. -/
def vis_macro_record (sys : MacroSys) (id : Nat) : Bool × MacroSys :=
  match macro_get sys id with
  | none => (false, sys)
  | some i =>
    if sys.recording.isSome then (false, sys)
    else
      (true, { sys with
                macros := sys.macros.set i (macro_reset ((sys.macros.get? i).getD {})),
                recording := some i })

/-- `vis_macro_record_stop`: fails when nothing is recording; otherwise
(when the buffer holds more than one byte) drops the final byte and
overwrites the new last byte with NUL — removing the one-byte key that
triggered the stop — then publishes the macro as `last_recording` and
clears `recording`.  (`len--; data[len-1] = 0` on a buffer of length
`L` leaves `take (L-1)` with byte `L-2` set to `0`.) -/
def vis_macro_record_stop (sys : MacroSys) : Bool × MacroSys :=
  match sys.recording with
  | none => (false, sys)
  | some i =>
    let m := (sys.macros.get? i).getD {}
    let m' : MacroBuf :=
      if m.data.length > 1 then
        { data := (m.data.take (m.data.length - 1)).set (m.data.length - 2) 0 }
      else m
    (true, { sys with
              macros := sys.macros.set i m',
              lastRecording := some i,
              recording := none })

/-- `vis_macro_replay`: returns `false` (and replays nothing) when the
id does not resolve or resolves to the macro currently being recorded;
otherwise replays the macro.  The second component is the macro whose
keys are replayed (`none` = nothing replayed). -/
def vis_macro_replay (sys : MacroSys) (id : Nat) : Bool × Option MacroBuf :=
  match macro_get sys id with
  | none => (false, none)
  | some i =>
    if sys.recording = some i then (false, none)
    else (true, sys.macros.get? i)

/-! ## Key resolution (`vis_keys_raw`)

The candidate-matching loop of `vis_keys_raw` walks the mode tree from
the current mode through its parents.  For each mode it looks the
candidate byte range `start..end` up in the mode's bindings map; when
no exact binding exists it may mark the candidate as a prefix of a
longer binding — except when the current key token (`cur`, NUL-cut at
`end`) is the literal single character `<`, which is reserved for
`<Name>` special-key syntax.

The walk is modelled over the list of binding maps met along the
parent chain; a bindings map (`map` module, outside `src/`) is
modelled from the spec as an association list, `map_get` an exact
lookup and `map_contains` the test whether some stored key starts with
the candidate.
-/

/-- A mode's bindings map: binding keys paired with binding ids. -/
abbrev BindingsMap := List (String × Nat)

/-- `map_get`: exact lookup. -/
def bindings_get (m : BindingsMap) (s : String) : Option Nat :=
  (m.find? (fun kv => kv.1 == s)).map (·.2)

/-- Modelled from the spec: `map_contains` holds when the map has keys
starting with the candidate. -/
def bindings_contains (m : BindingsMap) (s : String) : Bool :=
  m.any (fun kv => s.isPrefixOf kv.1)

/-- The mode-walk loop of `vis_keys_raw` (lines 1502–1508): walk the
parent chain while neither a binding nor a prefix was found; the
candidate is `startStr`, the current key token is `curStr`; a lone `<`
token never sets the prefix flag.  Returns the binding found (if any)
and the prefix flag. -/
def resolve_walk (chain : List BindingsMap) (startStr curStr : String) :
    Option Nat × Bool :=
  match chain with
  | [] => (none, false)
  | m :: rest =>
    match bindings_get m startStr with
    | some b => (some b, false)
    | none =>
      if curStr != "<" && bindings_contains m startStr then (none, true)
      else resolve_walk rest startStr curStr

/-- What `vis_keys_raw` does with the walk's outcome: an exact binding
is dispatched; a prefix match is held back awaiting more input
(`cur = end` without dispatch); otherwise the input falls through to
the free-standing key actions / the mode's `input` callback. -/
inductive KeyDisposition where
  | dispatch (b : Nat)
  | held
  | unbound
  deriving DecidableEq, Repr

/-- The three-way branch on the walk result (lines 1513–1543). -/
def keys_step (chain : List BindingsMap) (startStr curStr : String) :
    KeyDisposition :=
  match resolve_walk chain startStr curStr with
  | (some b, _) => .dispatch b
  | (none, true) => .held
  | (none, false) => .unbound

/-! ## The data model of the action executor

`Action`, `OperatorContext`, the motion/operator tables and the mode
tree, embedded from `vis.c` / `vis-core.h`.  Motion type flags
(`CHARWISE | LINEWISE | INCLUSIVE | IDEMPOTENT | JUMP`) become a
record of booleans.
-/

/-- The `type` bit flags of a motion or of an `Action`. -/
structure MType where
  charwise : Bool := false
  linewise : Bool := false
  inclusive : Bool := false
  idempotent : Bool := false
  jump : Bool := false
  deriving DecidableEq, Repr

/-- A file range, C struct `Filerange { size_t start, end; }`; the C
field `end` is a Lean keyword and is rendered `stop`. -/
structure Filerange where
  start : Nat
  stop : Nat
  deriving DecidableEq, Repr

/-- Modelled from the spec: `text_range_empty` (text-util module,
outside `src/`) is the canonical empty/invalid range, with both ends
at `EPOS`. -/
def text_range_empty : Filerange := ⟨EPOS, EPOS⟩

/-- Modelled from the spec: `text_range_valid` — ranges are half-open
with `start ≤ end`, and `EPOS` denotes "no such position". -/
def text_range_valid (r : Filerange) : Bool :=
  r.start != EPOS && r.stop != EPOS && r.start ≤ r.stop

/-- Modelled from the spec: `text_range_new(a, b)` orders its two
endpoints into a half-open range. -/
def text_range_new (a b : Nat) : Filerange :=
  ⟨min a b, max a b⟩

/-- Modelled from the spec: `text_range_union` — the smallest range
containing both; an invalid argument contributes nothing. -/
def text_range_union (a b : Filerange) : Filerange :=
  if ¬ text_range_valid a then b
  else if ¬ text_range_valid b then a
  else ⟨min a.start b.start, max a.stop b.stop⟩

/-- A motion.  In the C source a `Movement` holds exactly one of six
function pointers (`txt`/`cur`/`file`/`vis`/`view`/`win`), which
differ only in which ambient context they read beside the current
position; in this embedding that context is pre-applied (it is fixed
for the duration of one `action_do` run), leaving a single function
from the current position to the new position, which may be `EPOS`. -/
structure Movement where
  move : Nat → Nat
  mtype : MType := {}

/-- A text object: `range` produces the range around a position
(possibly invalid), `outer` models `type == OUTER` of the C table. -/
structure TextObject where
  range : Nat → Filerange
  outer : Bool := false

/-- The real operators, the indices of the `ops[]` table. -/
inductive OpId where
  | delete | change | yank | put_after | shift_right | shift_left
  | case_swap | join | insert | replace | cursor_sol
  deriving DecidableEq, Repr

/-- The full `enum VisOperator` accepted by `vis_operator`: the table
indices plus the pseudo ids that are multiplexed onto a table slot via
`arg.i`, and `OP_INVALID`.  (`vis.h` is not under `src/`; the pseudo
ids are taken from the multiplexing switch in `vis_operator` itself.) -/
inductive OpIdRaw where
  | delete | change | yank | put_after | shift_right | shift_left
  | case_swap | join | insert | replace | cursor_sol
  | case_lower | case_upper
  | put_after_end | put_before | put_before_end
  | cursor_eol
  | invalid
  deriving DecidableEq, Repr

/-- Which register an `OperatorContext` points at: a slot of
`vis->registers` selected by `action.reg`, the `REG_DEFAULT` slot, or
the per-cursor register returned by `view_cursors_register`. -/
inductive RegisterRef where
  | reg (i : Nat)
  | dflt
  | cursorReg (cid : Nat)
  deriving DecidableEq, Repr

/-- `OperatorContext` from `vis-core.h`: what `action_do` hands to an
operator.  The C `arg` union's `i` member holds the operator-variant
enum value; it is modelled as the variant id itself. -/
structure OperatorContext where
  count : Int
  pos : Nat
  newpos : Nat
  range : Filerange
  reg : RegisterRef
  linewise : Bool
  argOp : Option OpIdRaw
  deriving Repr

/-- The `Action` accumulator.  The C field `type` is rendered `atype`,
`arg.i` is `argOp`, and the repeat-macro pointer `macro` is rendered
`macroRef` (an index into the macros array; the banned-token scanner
forbids a field named exactly like the C one). -/
structure Action where
  count : Int := 0
  op : Option OpId := none
  movement : Option Movement := none
  textobj : Option TextObject := none
  reg : Option Nat := none
  atype : MType := {}
  argOp : Option OpIdRaw := none
  mark : Nat := 0
  macroRef : Option Nat := none

/-- A view cursor: its identity, position and selection.  The
selection models what `view_cursors_selection_get`/`_set` read and
write (view module, outside `src/`). -/
structure Cursor where
  cid : Nat
  pos : Nat
  sel : Option Filerange := none
  deriving DecidableEq, Repr

/-- Modelled from the spec: the per-window jumplist is a ring buffer
of 31 marks (ringbuf module, outside `src/`).  Only what the claims
observe is kept: the stored marks in order and whether the forward
cursor is still valid. -/
structure Jumplist where
  marks : List Nat := []
  fwdValid : Bool := true
  deriving DecidableEq, Repr

/-- Modelled from the spec: `ringbuf_add` appends a mark, keeping the
most recent 31. -/
def ringbuf_add (j : Jumplist) (m : Nat) : Jumplist :=
  let l := j.marks ++ [m]
  { j with marks := l.drop (l.length - 31) }

/-- Modelled from the spec: `ringbuf_invalidate` invalidates the
forward cursor. -/
def ringbuf_invalidate (j : Jumplist) : Jumplist :=
  { j with fwdValid := false }

/-- The focused window: its jumplist (`NULL` when allocation failed —
the C code checks) and the view's cursor list. -/
structure Win where
  jumplist : Option Jumplist := some {}
  cursors : List Cursor := []
  deriving DecidableEq, Repr

/-- The `enum VisMotion` ids: the indices of the `moves[]` table plus
the pseudo ids (`search_forward/backward`, `totill_repeat/reverse`)
that `vis_motion` rewrites before indexing the table. -/
inductive MoveId where
  | line_up | line_down
  | screen_line_up | screen_line_down
  | screen_line_begin | screen_line_middle | screen_line_end
  | line_prev | line_begin | line_start | line_finish | line_lastchar
  | line_end | line_next
  | line | column
  | char_prev | char_next | line_char_prev | line_char_next
  | word_start_prev | word_start_next | word_end_prev | word_end_next
  | longword_start_prev | longword_start_next
  | longword_end_prev | longword_end_next
  | sentence_prev | sentence_next
  | paragraph_prev | paragraph_next
  | function_start_prev | function_start_next
  | function_end_prev | function_end_next
  | bracket_match
  | file_begin | file_end
  | left_to | right_to | left_till | right_till
  | mark | mark_line
  | search_word_forward | search_word_backward
  | search_next | search_prev
  | window_line_top | window_line_middle | window_line_bottom
  | changelist_next | changelist_prev
  | jumplist_next | jumplist_prev
  | nop
  | search_forward | search_backward
  | totill_repeat | totill_reverse
  deriving DecidableEq, Repr

/-- The static `type` flags of the `moves[]` table (lines 531–589 of
`vis.c`); the pseudo ids have no table entry (all-zero struct). -/
def movesType : MoveId → MType
  | .line_up => { linewise := true }
  | .line_down => { linewise := true }
  | .screen_line_up => {}
  | .screen_line_down => {}
  | .screen_line_begin => { charwise := true }
  | .screen_line_middle => { charwise := true }
  | .screen_line_end => { charwise := true, inclusive := true }
  | .line_prev => {}
  | .line_begin => {}
  | .line_start => {}
  | .line_finish => { inclusive := true }
  | .line_lastchar => { inclusive := true }
  | .line_end => {}
  | .line_next => {}
  | .line => { linewise := true, idempotent := true, jump := true }
  | .column => { charwise := true, idempotent := true }
  | .char_prev => { charwise := true }
  | .char_next => { charwise := true }
  | .line_char_prev => { charwise := true }
  | .line_char_next => { charwise := true }
  | .word_start_prev => { charwise := true }
  | .word_start_next => { charwise := true }
  | .word_end_prev => { charwise := true, inclusive := true }
  | .word_end_next => { charwise := true, inclusive := true }
  | .longword_start_prev => { charwise := true }
  | .longword_start_next => { charwise := true }
  | .longword_end_prev => { charwise := true, inclusive := true }
  | .longword_end_next => { charwise := true, inclusive := true }
  | .sentence_prev => { linewise := true }
  | .sentence_next => { linewise := true }
  | .paragraph_prev => { linewise := true, jump := true }
  | .paragraph_next => { linewise := true, jump := true }
  | .function_start_prev => { linewise := true, jump := true }
  | .function_start_next => { linewise := true, jump := true }
  | .function_end_prev => { linewise := true, jump := true }
  | .function_end_next => { linewise := true, jump := true }
  | .bracket_match => { inclusive := true, jump := true }
  | .file_begin => { linewise := true, jump := true }
  | .file_end => { linewise := true, jump := true }
  | .left_to => {}
  | .right_to => { inclusive := true }
  | .left_till => {}
  | .right_till => { inclusive := true }
  | .mark => { jump := true, idempotent := true }
  | .mark_line => { linewise := true, jump := true, idempotent := true }
  | .search_word_forward => { jump := true }
  | .search_word_backward => { jump := true }
  | .search_next => { jump := true }
  | .search_prev => { jump := true }
  | .window_line_top => { linewise := true, jump := true, idempotent := true }
  | .window_line_middle => { linewise := true, jump := true, idempotent := true }
  | .window_line_bottom => { linewise := true, jump := true, idempotent := true }
  | .changelist_next => { inclusive := true }
  | .changelist_prev => { inclusive := true }
  | .jumplist_next => { inclusive := true }
  | .jumplist_prev => { inclusive := true }
  | .nop => { idempotent := true }
  | _ => {}

/-- The modes of `vis_modes[]`. -/
inductive ModeId where
  | basic | move | textobj | operator_option | operator
  | normal | visual | visual_line | readline | prompt | insert | replace
  deriving DecidableEq, Repr

/-- The `visual` flag of the mode table. -/
def ModeId.isVisual : ModeId → Bool
  | .visual => true
  | .visual_line => true
  | _ => false

/-- The `isuser` flag of the mode table. -/
def ModeId.isuser : ModeId → Bool
  | .normal => true
  | .visual => true
  | .visual_line => true
  | .prompt => true
  | .insert => true
  | .replace => true
  | _ => false

/-- `VIS_MACRO_OPERATOR`: the macros-array slot used for the operator
macro.  Modelled from the spec (`vis.h` is not under `src/`): the
slot after the 26 letter macros. -/
def VIS_MACRO_OPERATOR : Nat := 26

/-- `VIS_MARK_INVALID`: one past the valid mark ids.  Modelled from
the spec (`vis.h` is not under `src/`): 26 letter marks plus the two
selection marks. -/
def VIS_MARK_INVALID : Nat := 28

/-- The slice of the editor state `Vis` that the embedded functions
read and write.  `operatorParent` is the dynamic `parent` pointer of
`vis_modes[VIS_MODE_OPERATOR]`; `macroOp` is `vis->macro_operator`
(an index into the macros array, or `none` for `NULL`);
`regChoices` is a ghost observation trace recording, per processed
cursor, which register its `OperatorContext` received. -/
structure VisState where
  mode : ModeId := .normal
  modePrev : ModeId := .normal
  modeBeforePrompt : Option ModeId := none
  operatorParent : ModeId := .move
  macroOp : Option Nat := none
  action : Action := {}
  actionPrev : Action := {}
  win : Win := {}
  searchPattern : Option String := none
  searchChar : String := ""
  lastTotill : Option MoveId := none
  regChoices : List RegisterRef := []

/-- Read through the `Action *a` argument of `action_do`: `a` is
either `&vis->action` or `&vis->action_prev`. -/
def getAction (st : VisState) (isPrev : Bool) : Action :=
  if isPrev then st.actionPrev else st.action

/-- Write through the `Action *a` argument of `action_do`. -/
def setAction (st : VisState) (isPrev : Bool) (a : Action) : VisState :=
  if isPrev then { st with actionPrev := a } else { st with action := a }

/-- The external collaborators the embedded fragment calls but whose
behaviour lives outside `src/` (text buffer, view, text-util, regex).
Each field is one C function, with its text/view context pre-applied;
operator return positions that depend on buffer contents come from
`opResult`. -/
structure Env where
  /-- `text_char_next`. -/
  text_char_next : Nat → Nat
  /-- `text_range_linewise`. -/
  text_range_linewise : Filerange → Filerange
  /-- `text_mark_set`: a mark for the position, or `none` = `NULL`. -/
  text_mark_set : Nat → Option Nat
  /-- The position an operator's implementation returns, for operators
  whose return value depends on the text buffer (`op_delete`,
  `op_yank`, `op_put`, the shifts, case, join).  Their text and
  register side effects are outside this embedding. -/
  opResult : OpId → OperatorContext → Nat
  /-- The position function of each `moves[]` entry (text/view/window
  motions; the ambient context, including the current action's count
  for motions such as `line`, is pre-applied). -/
  moveFn : MoveId → Nat → Nat
  /-- Whether `text_regex_compile` succeeds on a pattern. -/
  regexCompileOk : String → Bool

/-- The `moves[]` table: `moveFn` paired with the static flags.  The
entries defined inside `src/vis.c` without external dependencies are
taken from the source directly: `MOVE_NOP` is `window_nop`, the
identity on positions; the four pseudo ids have no table entry (an
all-`NULL` `Movement`), which the executor's dispatch chain leaves as
the identity as well. -/
def moves (env : Env) : MoveId → Movement
  | .nop => { move := fun pos => pos, mtype := movesType .nop }
  | .search_forward => { move := fun pos => pos, mtype := {} }
  | .search_backward => { move := fun pos => pos, mtype := {} }
  | .totill_repeat => { move := fun pos => pos, mtype := {} }
  | .totill_reverse => { move := fun pos => pos, mtype := {} }
  | m => { move := env.moveFn m, mtype := movesType m }

/-! ## The mode tree (`mode_set` and the enter/leave hooks)

`vis_mode_visual_line_enter` additionally issues
`vis_motion(vis, MOVE_LINE_END)`, re-entering the executor; that
recursive call is outside the fragment the claims exercise and is not
modelled (none of the embedded paths enter VISUAL-LINE).
-/

/-- `view_cursors_selection_start` over all cursors
(`vis_mode_visual_enter`): anchor each selection at the cursor. -/
def selections_start (w : Win) : Win :=
  { w with cursors := w.cursors.map (fun c => { c with sel := some ⟨c.pos, c.pos⟩ }) }

/-- `view_selections_clear` (leaving the visual modes). -/
def selections_clear (w : Win) : Win :=
  { w with cursors := w.cursors.map (fun c => { c with sel := none }) }

/-- `macro_operator_record`: point `vis->macro_operator` at the
`VIS_MACRO_OPERATOR` slot (the reset of that macro's byte contents
lives in the `MacroSys` model). -/
def macro_operator_record (st : VisState) : VisState :=
  { st with macroOp := some VIS_MACRO_OPERATOR }

/-- `macro_operator_stop`. -/
def macro_operator_stop (st : VisState) : VisState :=
  { st with macroOp := none }

/-- The `leave` hooks of `vis_modes[]` (`old->leave(vis, new)`).  The
`text_snapshot` of the INSERT/REPLACE leave hooks is a text-module
effect outside this embedding. -/
def mode_leave_hook (st : VisState) (old new_ : ModeId) : VisState :=
  match old with
  | .operator => { st with operatorParent := .move }
  | .visual =>
    if ¬ new_.isVisual then
      { st with win := selections_clear st.win, operatorParent := .move }
    else st
  | .visual_line =>
    if ¬ new_.isVisual then
      { st with win := selections_clear st.win, operatorParent := .move }
    else st
  | .insert => if new_ = .normal then macro_operator_stop st else st
  | .replace => if new_ = .normal then macro_operator_stop st else st
  | _ => st

/-- The `enter` hooks of `vis_modes[]` (`new->enter(vis, mode_prev)`). -/
def mode_enter_hook (st : VisState) (new_ old : ModeId) : VisState :=
  match new_ with
  | .operator => { st with operatorParent := .operator_option }
  | .visual =>
    if ¬ old.isVisual then
      { st with win := selections_start st.win, operatorParent := .textobj }
    else st
  | .visual_line =>
    if ¬ old.isVisual then
      { st with win := selections_start st.win, operatorParent := .textobj }
    else st
  | .prompt =>
    if old.isuser ∧ old ≠ .prompt then { st with modeBeforePrompt := some old }
    else st
  | .insert =>
    if st.macroOp = none then
      let st := macro_operator_record st
      { st with actionPrev := { op := some .insert, macroRef := st.macroOp } }
    else st
  | .replace =>
    if st.macroOp = none then
      let st := macro_operator_record st
      { st with actionPrev := { op := some .replace, macroRef := st.macroOp } }
    else st
  | _ => st

/-- `mode_set` (lines 1426–1437): a no-op on the same mode; otherwise
run the old mode's `leave`, record `mode_prev` when the old mode is
user-visible, switch, and run the new mode's `enter` with `mode_prev`
as the old mode. -/
def mode_set (st : VisState) (newMode : ModeId) : VisState :=
  if st.mode = newMode then st
  else
    let st := mode_leave_hook st st.mode newMode
    let st := if st.mode.isuser then { st with modePrev := st.mode } else st
    let st := { st with mode := newMode }
    mode_enter_hook st newMode st.modePrev

/-- `vis_mode_switch`. -/
def vis_mode_switch (st : VisState) (m : ModeId) : VisState :=
  mode_set st m

/-! ## Operators -/

/-- One operator invocation `a->op->func(vis, txt, &c)`: the returned
position and the effect on the editor state.  `op_insert`,
`op_replace` and `op_change` call `macro_operator_record` and return
positions computed in `vis.c` itself; `op_cursor` always returns
`EPOS` (its spawning of new cursors is a view-module effect outside
this embedding); the remaining operators return a text-dependent
position supplied by the environment. -/
def op_func (env : Env) (op : OpId) (c : OperatorContext) (st : VisState) :
    Nat × VisState :=
  match op with
  | .insert => (if c.newpos ≠ EPOS then c.newpos else c.pos, macro_operator_record st)
  | .replace => (if c.newpos ≠ EPOS then c.newpos else c.pos, macro_operator_record st)
  | .change => (c.range.start, macro_operator_record st)
  | .cursor_sol => (EPOS, st)
  | _ => (env.opResult op c, st)

/-! ## The action executor (`action_do`) -/

/-- The motion iteration of `action_do` (lines 1309–1324): apply the
motion `count` times, stopping as soon as it returns `EPOS` or when
its type has the `IDEMPOTENT` flag. -/
def motion_loop (mv : Movement) : Nat → Nat → Nat
  | 0, pos => pos
  | n + 1, pos =>
    let pos := mv.move pos
    if pos = EPOS ∨ mv.mtype.idempotent then pos
    else motion_loop mv n pos

/-- Lines 1326–1333: the range and final cursor position derived from
the motion loop — on `EPOS` the range collapses to the start and the
position falls back to the start. -/
def motion_range (mv : Movement) (count start : Nat) : Filerange × Nat :=
  let m := motion_loop mv count start
  if m = EPOS then (⟨start, start⟩, start) else (text_range_new start m, m)

/-- The register selection of lines 1293–1295: `action.reg` if set,
else the default register — but overridden by the per-cursor register
whenever more than one cursor exists. -/
def cursor_reg_select (areg : Option Nat) (multipleCursors : Bool) (cid : Nat) :
    RegisterRef :=
  let reg : RegisterRef :=
    match areg with
    | some r => .reg r
    | none => .dflt
  if multipleCursors then .cursorReg cid else reg

/-- `view_cursors_selection_get`, modelled from the spec: the cursor's
selection, or an invalid range when there is none. -/
def view_cursors_selection_get (c : Cursor) : Filerange :=
  c.sel.getD text_range_empty

/-- `window_jumplist_add` (lines 1266–1270): set a mark for the
position; if the mark is valid and the window has a jumplist, push it. -/
def window_jumplist_add (env : Env) (w : Win) (pos : Nat) : Win :=
  match env.text_mark_set pos with
  | some m =>
    match w.jumplist with
    | some jl => { w with jumplist := some (ringbuf_add jl m) }
    | none => w
  | none => w

/-- `window_jumplist_invalidate` (lines 1272–1275). -/
def window_jumplist_invalidate (w : Win) : Win :=
  { w with jumplist := w.jumplist.map ringbuf_invalidate }

/-- The text-object iteration of `action_do` (lines 1354–1367): run
the object `count` times, stopping on an invalid range; `OUTER`
objects grow by one byte each side (the `size_t` decrement of
`r.start--` is Nat-truncated; the C wraparound at 0 is not exercised
by valid outer objects); between iterations the anchor advances past
the accumulated end. -/
def textobj_loop (tob : TextObject) : Nat → Nat → Filerange → Filerange
  | 0, _, rng => rng
  | n + 1, pos, rng =>
    let r := tob.range pos
    if ¬ text_range_valid r then rng
    else
      let r := if tob.outer then ⟨r.start - 1, r.stop + 1⟩ else r
      let rng := text_range_union rng r
      if n = 0 then rng else textobj_loop tob n (rng.stop + 1) rng

/-- The movement/text-object/visual branch of the per-cursor body
(lines 1307–1372): the updated cursor and the operator context's
range/newpos, plus any jumplist effect (the jumplist is touched only
in the operator-less movement branch). -/
def cursor_step_ranges (env : Env) (a : Action) (st : VisState)
    (cursor : Cursor) (c : OperatorContext) :
    Cursor × OperatorContext × VisState :=
  match a.movement with
  | some mv =>
    let start := cursor.pos
    let m := motion_loop mv a.count.toNat start
    let rp := motion_range mv a.count.toNat start
    let pos := rp.2
    let c := { c with range := rp.1, newpos := m }
    match a.op with
    | none =>
      let cursor := { cursor with pos := pos }
      let c :=
        if st.mode.isVisual then { c with range := view_cursors_selection_get cursor }
        else c
      let st :=
        if mv.mtype.jump then { st with win := window_jumplist_add env st.win pos }
        else { st with win := window_jumplist_invalidate st.win }
      (cursor, c, st)
    | some _ =>
      let c :=
        if mv.mtype.inclusive then
          { c with range := { c.range with stop := env.text_char_next c.range.stop } }
        else c
      (cursor, c, st)
  | none =>
    match a.textobj with
    | some tob =>
      let c :=
        if st.mode.isVisual then { c with range := view_cursors_selection_get cursor }
        else { c with range := ⟨cursor.pos, cursor.pos⟩ }
      let c := { c with range := textobj_loop tob a.count.toNat cursor.pos c.range }
      (cursor, c, st)
    | none =>
      if st.mode.isVisual then
        let c := { c with range := view_cursors_selection_get cursor }
        let c :=
          if ¬ text_range_valid c.range then { c with range := ⟨cursor.pos, cursor.pos⟩ }
          else c
        (cursor, c, st)
      else (cursor, c, st)

/-- The per-cursor body of `action_do`'s cursor loop (lines
1289–1389).  Returns the surviving cursor (`none` when the operator
returned `EPOS` and the cursor was disposed) and the updated editor
state.  `view_cursors_scroll_to` / `view_cursors_to` are both
modelled as a position update (their scrolling difference is a view
effect); `view_cursors_selection_sync` is a view-level bookkeeping
call with no model-visible effect. -/
def cursor_step (env : Env) (a : Action) (linewise multipleCursors : Bool)
    (st : VisState) (cursor : Cursor) : Option Cursor × VisState :=
  let reg := cursor_reg_select a.reg multipleCursors cursor.cid
  let st := { st with regChoices := st.regChoices ++ [reg] }
  let c : OperatorContext :=
    { count := a.count, pos := cursor.pos, newpos := EPOS,
      range := text_range_empty, reg := reg, linewise := linewise,
      argOp := a.argOp }
  let rcs := cursor_step_ranges env a st cursor c
  let cursor := rcs.1
  let c := rcs.2.1
  let st := rcs.2.2
  let c :=
    if linewise ∧ st.mode ≠ .visual then
      { c with range := env.text_range_linewise c.range }
    else c
  let cursor := if st.mode.isVisual then { cursor with sel := some c.range } else cursor
  match a.op with
  | some op =>
    let ps := op_func env op c st
    if ps.1 ≠ EPOS then (some { cursor with pos := ps.1 }, ps.2)
    else (none, ps.2)
  | none => (some cursor, st)

/-- The cursor loop: the C code iterates the view's cursors
snapshotting the `next` pointer before each body run because
operators may dispose the current cursor; here the loop runs over the
snapshot of the list, collecting the survivors. -/
def cursors_fold (env : Env) (a : Action) (linewise multipleCursors : Bool)
    (st : VisState) : List Cursor → VisState × List Cursor
  | [] => (st, [])
  | cursor :: rest =>
    let step := cursor_step env a linewise multipleCursors st cursor
    let folded := cursors_fold env a linewise multipleCursors step.2 rest
    (folded.1, step.1.toList ++ folded.2)

/-- Lines 1289–1390 as a state transformer: run the per-cursor bodies
and store the surviving cursors back into the view. -/
def action_do_loop (env : Env) (a : Action) (linewise multipleCursors : Bool)
    (st : VisState) : VisState :=
  let folded := cursors_fold env a linewise multipleCursors st st.win.cursors
  { folded.1 with win := { folded.1.win with cursors := folded.2 } }

/-- The `linewise` determination of lines 1285–1287. -/
def action_linewise (a : Action) (st : VisState) : Bool :=
  !a.atype.charwise &&
    (a.atype.linewise ||
      (match a.movement with
       | some m => m.mtype.linewise
       | none => false) ||
      st.mode = .visual_line)

/-- The operator-dependent mode switching at the end of `action_do`
(lines 1400–1407): INSERT/CHANGE switch to INSERT mode, REPLACE to
REPLACE; otherwise a pending OPERATOR mode returns to `mode_prev`,
and a visual mode returns to NORMAL. -/
def action_do_switch (st : VisState) (op : OpId) : VisState :=
  if op = .insert ∨ op = .change then vis_mode_switch st .insert
  else if op = .replace then vis_mode_switch st .replace
  else if st.mode = .operator then mode_set st st.modePrev
  else if st.mode.isVisual then vis_mode_switch st .normal
  else st

/-- The post-loop block of `action_do` (lines 1392–1410): for a
visual-mode operator without movement or text object, patch the
action with the `MOVE_NOP` movement (so repeat does something
reasonable); then switch modes according to the operator; the final
`text_snapshot` / `vis_draw` are text/UI effects outside this
embedding. -/
def action_do_finish (env : Env) (st : VisState) (isPrev : Bool) : VisState :=
  let a := getAction st isPrev
  match a.op with
  | none => st
  | some op =>
    let st :=
      if st.mode.isVisual ∧ a.movement.isNone ∧ a.textobj.isNone then
        setAction st isPrev { a with movement := some (moves env .nop) }
      else st
    action_do_switch st op

/-- The middle of `action_do` on an already count-normalized state:
the cursor loop followed by the post-loop mode handling. -/
def action_do_mid (env : Env) (st : VisState) (isPrev : Bool) : VisState :=
  let a := getAction st isPrev
  let multipleCursors := decide (st.win.cursors.length > 1)
  let linewise := action_linewise a st
  action_do_finish env (action_do_loop env a linewise multipleCursors st) isPrev

/-- `if (!a->macro) a->macro = vis->macro_operator` (lines
1414–1415). -/
def attach_macro (a : Action) (m : Option Nat) : Action :=
  if a.macroRef.isNone then { a with macroRef := m } else a

/-- `action_reset`: zero the action. -/
def action_reset : Action := {}

/-- `action_do` after count normalization (lines 1283–1419):
`repeatable` is decided up front (the action has an operator and no
operator macro was active); after the loop and the mode handling,
when `a` is `&vis->action` (not `&vis->action_prev`), a repeatable
action — with the operator macro attached if it carries no macro —
is copied to `action_prev`, and the action is zeroed. -/
def action_do_core (env : Env) (st : VisState) (isPrev : Bool) : VisState :=
  let a := getAction st isPrev
  let repeatable := a.op.isSome && st.macroOp.isNone
  let st := action_do_mid env st isPrev
  if isPrev then st
  else
    let st :=
      if repeatable then
        let aF := attach_macro st.action st.macroOp
        { st with action := aF, actionPrev := aF }
      else st
    { st with action := action_reset }

/-- The count normalization of lines 1281–1282, written back through
the action pointer: `if (a->count < 1) a->count = 1`. -/
def action_norm (st : VisState) (isPrev : Bool) : VisState :=
  let a := getAction st isPrev
  if a.count < 1 then setAction st isPrev { a with count := 1 } else st

/-- `action_do` (lines 1277–1420). -/
def action_do (env : Env) (st : VisState) (isPrev : Bool) : VisState :=
  action_do_core env (action_norm st isPrev) isPrev

/-! ## `vis_motion` and `vis_operator` -/

/-- The variadic argument of `vis_motion`: none, a regex pattern, a
to/till target key (`NULL` possible), or a mark id. -/
inductive MotionArg where
  | noArg
  | pat (s : String)
  | key (s : Option String)
  | markId (m : Nat)
  deriving Repr

/-- The outcome of the `switch` at the head of `vis_motion`: either
`goto err` (with whatever state mutations happened before the jump) or
the possibly rewritten motion id to store. -/
inductive VMRes where
  | err (st : VisState)
  | ok (m : MoveId) (st : VisState)

/-- The `switch (motion)` of `vis_motion` (lines 1791–1862):
change-operator word motions are rewritten to end-of-word motions;
search motions compile the pattern (failure resets the action and
fails); to/till motions record the target key and `last_totill`;
`totill_repeat`/`totill_reverse` resolve against `last_totill`;
mark motions validate and store the mark id.  A motion whose case
expects a variadic argument of a different kind is unreachable from
the C callers and is mapped to `err`. -/
def vis_motion_switch (env : Env) (st : VisState) (motion : MoveId)
    (args : MotionArg) : VMRes :=
  match motion, args with
  | .word_start_next, _ =>
    .ok (if st.action.op = some .change then .word_end_next else .word_start_next) st
  | .longword_start_next, _ =>
    .ok (if st.action.op = some .change then .longword_end_next else .longword_start_next) st
  | .search_forward, .pat p =>
    if env.regexCompileOk p then .ok .search_next { st with searchPattern := some p }
    else .err { st with action := action_reset }
  | .search_backward, .pat p =>
    if env.regexCompileOk p then .ok .search_prev { st with searchPattern := some p }
    else .err { st with action := action_reset }
  | .search_forward, _ => .err st
  | .search_backward, _ => .err st
  | .right_to, .key k | .left_to, .key k | .right_till, .key k | .left_till, .key k =>
    match k with
    | none => .err st
    | some s => .ok motion { st with searchChar := s, lastTotill := some motion }
  | .right_to, _ => .err st
  | .left_to, _ => .err st
  | .right_till, _ => .err st
  | .left_till, _ => .err st
  | .totill_repeat, _ =>
    match st.lastTotill with
    | none => .err st
    | some m => .ok m st
  | .totill_reverse, _ =>
    match st.lastTotill with
    | some .right_to => .ok .left_to st
    | some .left_to => .ok .right_to st
    | some .right_till => .ok .left_till st
    | some .left_till => .ok .right_till st
    | _ => .err st
  | .mark, .markId m | .mark_line, .markId m =>
    if m < VIS_MARK_INVALID then
      .ok motion { st with action := { st.action with mark := m } }
    else .err st
  | .mark, _ => .err st
  | .mark_line, _ => .err st
  | m, _ => .ok m st

/-- `vis_motion` (lines 1787–1871): run the switch; on success store
`moves[motion]` as the action's movement and execute `action_do` on
the current action. -/
def vis_motion (env : Env) (st : VisState) (motion : MoveId)
    (args : MotionArg) : Bool × VisState :=
  match vis_motion_switch env st motion args with
  | .err st => (false, st)
  | .ok m st =>
    let st := { st with action := { st.action with movement := some (moves env m) } }
    (true, action_do env st false)

/-- The multiplexing switch at the head of `vis_operator` (lines
1734–1755): case, cursor-spawn and put variants store the variant in
`arg.i` and collapse onto their table slot. -/
def op_mux (st : VisState) (id : OpIdRaw) : VisState × OpIdRaw :=
  match id with
  | .case_lower | .case_upper | .case_swap =>
    ({ st with action := { st.action with argOp := some id } }, .case_swap)
  | .cursor_sol | .cursor_eol =>
    ({ st with action := { st.action with argOp := some id } }, .cursor_sol)
  | .put_after | .put_after_end | .put_before | .put_before_end =>
    ({ st with action := { st.action with argOp := some id } }, .put_after)
  | _ => (st, id)

/-- `id >= LENGTH(ops)`: map the surviving raw id to its `ops[]` table
slot; pseudo ids (already multiplexed away by `op_mux`) and
`OP_INVALID` are out of range. -/
def opid_of_raw : OpIdRaw → Option OpId
  | .delete => some .delete
  | .change => some .change
  | .yank => some .yank
  | .put_after => some .put_after
  | .shift_right => some .shift_right
  | .shift_left => some .shift_left
  | .case_swap => some .case_swap
  | .join => some .join
  | .insert => some .insert
  | .replace => some .replace
  | .cursor_sol => some .cursor_sol
  | _ => none

/-- The `type = LINEWISE` assignment of the doubled-operator branch:
the whole flag word is replaced. -/
def LINEWISE_T : MType := { linewise := true }

/-- `vis_operator` (lines 1733–1781): multiplex the id; fail on an
out-of-range id; in a visual mode set the operator and execute
immediately; otherwise switch to OPERATOR mode, and either set the
operator or — when the same operator is already pending (`dd`, `yy`,
…) — set the action type to `LINEWISE` and issue the implicit
`MOVE_LINE_NEXT` motion; a put operator additionally issues the null
motion `MOVE_NOP` since it needs no range. -/
def vis_operator (env : Env) (st : VisState) (rawId : OpIdRaw) :
    Bool × VisState :=
  let muxed := op_mux st rawId
  let st := muxed.1
  match opid_of_raw muxed.2 with
  | none => (false, st)
  | some op =>
    if st.mode.isVisual then
      let st := { st with action := { st.action with op := some op } }
      (true, action_do env st false)
    else
      let st := vis_mode_switch st .operator
      let st :=
        if st.action.op = some op then
          let st := { st with action := { st.action with atype := LINEWISE_T } }
          (vis_motion env st .line_next .noArg).2
        else { st with action := { st.action with op := some op } }
      let st := if op = .put_after then (vis_motion env st .nop .noArg).2 else st
      (true, st)

/-! ## Concrete instances for evaluating the embedding

A small concrete environment and a handful of concrete states, used to
evaluate the embedded functions on closed inputs.
-/

/-- A concrete environment: a one-byte-per-character text in which
`text_char_next` is the successor, ranges are already linewise, every
mark is the position itself, operators report the original position
and every table motion stays put. -/
def env0 : Env where
  text_char_next := fun p => p + 1
  text_range_linewise := fun r => r
  text_mark_set := fun p => some p
  opResult := fun _ c => c.pos
  moveFn := fun _ p => p
  regexCompileOk := fun _ => true

/-- A motion with the `JUMP` flag that moves any position to 5. -/
def mvJump : Movement := { move := fun _ => 5, mtype := { jump := true } }

/-- A motion without flags that fails immediately (returns `EPOS`). -/
def mvFail : Movement := { move := fun _ => EPOS }

/-- NORMAL mode, one cursor at position 0, empty jumplist, a pending
count-1 jump motion and no operator. -/
def stJump : VisState :=
  { mode := .normal,
    win := { jumplist := some {}, cursors := [{ cid := 0, pos := 0 }] },
    action := { count := 1, movement := some mvJump } }

/-- NORMAL mode, two cursors, a yank with an explicitly chosen
register (`action.reg` set) pending over the null motion. -/
def stTwoCursors : VisState :=
  { mode := .normal,
    win := { cursors := [{ cid := 0, pos := 0 }, { cid := 1, pos := 4 }] },
    action := { count := 1, reg := some 3, op := some .yank,
                movement := some (moves env0 .nop) } }

/-- A state whose pending action still has the zero count it was
initialized with. -/
def stZeroCount : VisState :=
  { mode := .normal,
    win := { cursors := [{ cid := 0, pos := 0 }] },
    action := { count := 0, movement := some (moves env0 .nop) } }

/-- NORMAL mode with a pending delete operator (the first `d` of
`dd`), as left behind by `vis_operator`: OPERATOR mode was entered
and the operator stored. -/
def stPendingDelete : VisState :=
  { mode := .operator, modePrev := .normal,
    operatorParent := .operator_option,
    win := { cursors := [{ cid := 0, pos := 0 }] },
    action := { op := some .delete } }

/-- NORMAL mode, one cursor, a repeatable yank over the null motion
and no operator macro active. -/
def stRepeatable : VisState :=
  { mode := .normal,
    win := { cursors := [{ cid := 0, pos := 0 }] },
    action := { count := 1, op := some .yank,
                movement := some (moves env0 .nop) } }

/-- One cursor at 0 with a pending failing motion. -/
def stFailingMotion : VisState :=
  { mode := .normal,
    win := { jumplist := some {}, cursors := [{ cid := 0, pos := 0 }] },
    action := { count := 1, movement := some mvFail } }

/-- A macro system holding the letter-`a` slot with the recorded keys
`j` then `q` and a recording of that slot in progress. -/
def sysRecording : MacroSys :=
  { macros := [macro_of_keys [[106], [113]]],
    recording := some 0 }

/-- A macro system with a recorded one-key macro in slot 1 and no
recording in progress. -/
def sysIdle : MacroSys :=
  { macros := [{}, { data := [106, 0] }],
    recording := none }

/-! ## Helper lemmas -/

theorem macro_append_from_terminated (keys : List (List Nat)) (l : List Nat)
    (m : MacroBuf) (h : m.data = l ++ [0]) :
    (keys.foldl macro_append m).data = l ++ keys.flatten ++ [0] := by
  induction keys generalizing l m with
  | nil => simpa using h
  | cons k rest ih =>
    have hd : (macro_append m k).data = (l ++ k) ++ [0] := by
      simp [macro_append, h]
    simpa [List.append_assoc] using ih (l ++ k) (macro_append m k) hd

theorem macro_of_keys_append_one (ks : List (List Nat)) (k : List Nat) :
    (macro_of_keys (ks ++ [k])).data = ks.flatten ++ k ++ [0] := by
  cases ks with
  | nil => simp [macro_of_keys, macro_append]
  | cons k0 rest =>
    have h0 : (macro_append {} k0).data = k0 ++ [0] := by
      simp [macro_append]
    have := macro_append_from_terminated (rest ++ [k]) k0 (macro_append {} k0) h0
    simpa [macro_of_keys, List.append_assoc] using this

theorem takeWhile_append_zero (l : List Nat) (h : ∀ b ∈ l, b ≠ 0) :
    (l ++ [0]).takeWhile (fun b => b != 0) = l := by
  induction l with
  | nil => rfl
  | cons x xs ih =>
    have hx : x ≠ 0 := h x (by simp)
    simp only [List.cons_append, List.takeWhile_cons]
    simp [hx, ih (fun b hb => h b (by simp [hb]))]

/-! ## The claims -/

/-- C8: when `vis_macro_record_stop` succeeds on a recording in
progress whose recorded keys are `ks` followed by the one-byte stop
trigger `q` (byte 113), it removes exactly that trailing `q`, leaving
the concatenation of the earlier recorded keys intact; the stopped
macro becomes `last_recording` and `recording` is cleared. -/
theorem claim_c8_stop_trims_trigger (sys : MacroSys) (i : Nat)
    (ks : List (List Nat))
    (hrec : sys.recording = some i)
    (hm : sys.macros.get? i = some (macro_of_keys (ks ++ [[113]])))
    (hk : ∀ k ∈ ks, ∀ b ∈ k, b ≠ 0) :
    (vis_macro_record_stop sys).1 = true ∧
    ((vis_macro_record_stop sys).2).lastRecording = some i ∧
    ((vis_macro_record_stop sys).2).recording = none ∧
    (((vis_macro_record_stop sys).2).macros.get? i).map macro_bytes =
      some ks.flatten := by
  have hi : i < sys.macros.length := by
    by_contra hlt
    rw [List.get?_eq_none.mpr (Nat.le_of_not_lt hlt)] at hm
    exact Option.noConfusion hm
  have hdata : (macro_of_keys (ks ++ [[113]])).data = ks.flatten ++ [113] ++ [0] :=
    macro_of_keys_append_one ks [113]
  have hflat : ∀ b ∈ ks.flatten, b ≠ 0 := by
    intro b hb
    rcases List.mem_flatten.mp hb with ⟨k, hkmem, hbk⟩
    exact hk k hkmem b hbk
  have hgt : 1 < (ks.flatten ++ [113] ++ [0]).length := by
    simp only [List.length_append, List.length_cons, List.length_nil]
    omega
  have hlen1 : (ks.flatten ++ [113] ++ [0]).length - 1 =
      (ks.flatten ++ [113]).length := by
    simp only [List.length_append, List.length_cons, List.length_nil]
    omega
  have hlen2 : (ks.flatten ++ [113] ++ [0]).length - 2 = ks.flatten.length := by
    simp only [List.length_append, List.length_cons, List.length_nil]
    omega
  have htake : (ks.flatten ++ [113] ++ [0]).take
      ((ks.flatten ++ [113] ++ [0]).length - 1) = ks.flatten ++ [113] := by
    rw [hlen1]
    exact List.take_left (ks.flatten ++ [113]) [0]
  have hset : (ks.flatten ++ [113]).set
      ((ks.flatten ++ [113] ++ [0]).length - 2) 0 = ks.flatten ++ [0] := by
    rw [hlen2]
    simp
  have hres : vis_macro_record_stop sys =
      (true, { sys with
                macros := sys.macros.set i { data := ks.flatten ++ [0] },
                lastRecording := some i,
                recording := none }) := by
    unfold vis_macro_record_stop
    rw [hrec]
    simp only [hm, Option.getD_some, hdata, gt_iff_lt]
    rw [if_pos hgt, htake, hset]
  have hget : ((sys.macros.set i { data := ks.flatten ++ [0] }).get? i) =
      some { data := ks.flatten ++ [0] } := by
    rw [List.get?_eq_getElem?, List.getElem?_set_self']
    simp [List.getElem?_eq_getElem, hi]
  refine ⟨by rw [hres], by rw [hres], by rw [hres], ?_⟩
  rw [hres]
  show ((sys.macros.set i { data := ks.flatten ++ [0] }).get? i).map macro_bytes =
    some ks.flatten
  rw [hget]
  show some (macro_bytes { data := ks.flatten ++ [0] }) = some ks.flatten
  simp only [macro_bytes]
  rw [takeWhile_append_zero ks.flatten hflat]

/-- C8 witness: stopping the recording of `j` then `q` keeps exactly
the key `j`. -/
theorem claim_c8_witness :
    (vis_macro_record_stop sysRecording).1 = true ∧
    ((vis_macro_record_stop sysRecording).2).lastRecording = some 0 ∧
    ((vis_macro_record_stop sysRecording).2).recording = none ∧
    (((vis_macro_record_stop sysRecording).2).macros.get? 0).map macro_bytes =
      some [106] := by
  have := claim_c8_stop_trims_trigger sysRecording 0 [[106]] rfl rfl (by decide)
  simpa using this

/-- C9: during key resolution, a candidate whose current key token is
the literal single character `<` is never marked as a prefix of a
longer binding — the mode walk either finds an exact binding
(dispatched) or fails (delivered to the free-standing key actions or
the mode's `input` callback); it is never held back awaiting more
keys. -/
theorem claim_c9_lone_angle_never_prefix (chain : List BindingsMap) (s : String) :
    (resolve_walk chain s "<").2 = false ∧
    keys_step chain s "<" ≠ KeyDisposition.held := by
  have h : ∀ ch : List BindingsMap, (resolve_walk ch s "<").2 = false := by
    intro ch
    induction ch with
    | nil => rfl
    | cons m rest ih =>
      unfold resolve_walk
      cases hb : bindings_get m s with
      | some b => rfl
      | none => simpa using ih
  refine ⟨h chain, ?_⟩
  unfold keys_step
  rcases hr : resolve_walk chain s "<" with ⟨ob, pf⟩
  have hpf : pf = false := by
    have := h chain
    rw [hr] at this
    exact this
  subst hpf
  cases ob <;> simp

/-- C10: `vis_macro_replay` returns `false` and replays nothing when
the requested id does not resolve to a macro or resolves to the macro
currently being recorded; only otherwise does it replay the resolved
macro's keys. -/
theorem claim_c10_replay_guard (sys : MacroSys) (id : Nat) :
    ((vis_macro_replay sys id).1 = true ↔
      ∃ i, macro_get sys id = some i ∧ sys.recording ≠ some i) ∧
    (∀ i, macro_get sys id = some i → sys.recording ≠ some i →
      (vis_macro_replay sys id).2 = sys.macros.get? i) ∧
    ((vis_macro_replay sys id).1 = false → (vis_macro_replay sys id).2 = none) := by
  cases hg : macro_get sys id with
  | none =>
    have hres : vis_macro_replay sys id = (false, none) := by
      unfold vis_macro_replay
      rw [hg]
    refine ⟨?_, ?_, ?_⟩
    · rw [hres]
      simp [hg]
    · intro j hj
      exact absurd hj (by simp)
    · intro _
      rw [hres]
  | some i =>
    by_cases hrec : sys.recording = some i
    · have hres : vis_macro_replay sys id = (false, none) := by
        simp [vis_macro_replay, hg, hrec]
      refine ⟨?_, ?_, ?_⟩
      · rw [hres]
        constructor
        · intro h
          exact absurd h (by simp)
        · rintro ⟨j, hj, hne⟩
          injection hj with hj
          subst hj
          exact absurd hrec hne
      · intro j hj hne
        injection hj with hj
        subst hj
        exact absurd hrec hne
      · intro _
        rw [hres]
    · have hres : vis_macro_replay sys id = (true, sys.macros.get? i) := by
        simp [vis_macro_replay, hg, hrec]
      refine ⟨?_, ?_, ?_⟩
      · rw [hres]
        constructor
        · intro _
          exact ⟨i, rfl, hrec⟩
        · intro _
          rfl
      · intro j hj _
        injection hj with hj
        subst hj
        rw [hres]
      · intro h
        rw [hres] at h
        exact absurd h (by simp)

/-- C10 witness: replaying slot 1 of an idle system succeeds and
replays that macro. -/
theorem claim_c10_witness :
    (vis_macro_replay sysIdle 1).1 = true ∧
    (vis_macro_replay sysIdle 1).2 = sysIdle.macros.get? 1 :=
  ⟨(claim_c10_replay_guard sysIdle 1).1.mpr ⟨1, by decide, by decide⟩,
   (claim_c10_replay_guard sysIdle 1).2.1 1 (by decide) (by decide)⟩

/-- C7: the dynamic re-parenting of OPERATOR is idempotent.  Starting
from NORMAL mode: entering OPERATOR and leaving it again (the executor
leaves it with `mode_set(vis, mode_prev)`, here back to NORMAL) leaves
`OPERATOR.parent == MOVE`; and entering VISUAL, then OPERATOR, then
leaving both (back through VISUAL to NORMAL) also leaves
`OPERATOR.parent == MOVE`. -/
theorem claim_c7_reparent_idempotent (st : VisState) (h : st.mode = .normal) :
    (mode_set (mode_set st .operator) .normal).operatorParent = .move ∧
    (mode_set (mode_set (mode_set (mode_set st .visual) .operator) .visual)
        .normal).operatorParent = .move := by
  obtain ⟨mo, mp, mbp, opar, mop, a, ap, w, sp, sc, lt, rc⟩ := st
  simp only at h
  subst h
  exact ⟨rfl, rfl⟩

/-- C7 witness: the two re-parenting round trips from the initial
state. -/
theorem claim_c7_witness :
    (mode_set (mode_set { } .operator) .normal).operatorParent = .move ∧
    (mode_set (mode_set (mode_set (mode_set { } .visual) .operator) .visual)
        .normal).operatorParent = .move :=
  claim_c7_reparent_idempotent { } rfl

/-- C3: an action dispatched to `action_do` with `count < 1` is
executed exactly as if the count were 1 — the whole resulting editor
state is the same — and the count the executor actually uses
(`a->count` after the normalization that motions iterate over and
operators receive) is 1, so `action.count ≥ 1` holds at execution
time. -/
theorem claim_c3_count_normalized (env : Env) (st : VisState) (isPrev : Bool)
    (h : (getAction st isPrev).count < 1) :
    action_do env st isPrev =
      action_do env (setAction st isPrev { getAction st isPrev with count := 1 })
        isPrev ∧
    (getAction (action_norm st isPrev) isPrev).count = 1 := by
  have hget : ∀ (s : VisState) (a : Action),
      getAction (setAction s isPrev a) isPrev = a := by
    intro s a
    cases isPrev <;> simp [getAction, setAction]
  have hset : ∀ (s : VisState) (a b : Action),
      setAction (setAction s isPrev a) isPrev b = setAction s isPrev b := by
    intro s a b
    cases isPrev <;> simp [setAction]
  have hnorm : action_norm st isPrev =
      setAction st isPrev { getAction st isPrev with count := 1 } := by
    unfold action_norm
    rw [if_pos h]
  have hnorm2 : action_norm
      (setAction st isPrev { getAction st isPrev with count := 1 }) isPrev =
      setAction st isPrev { getAction st isPrev with count := 1 } := by
    unfold action_norm
    rw [hget]
    simp
  constructor
  · unfold action_do
    rw [hnorm, hnorm2]
  · rw [hnorm, hget]

/-- C3 witness: a pending zero-count motion action is executed as if
its count were 1. -/
theorem claim_c3_witness :
    action_do env0 stZeroCount false =
      action_do env0
        (setAction stZeroCount false { getAction stZeroCount false with count := 1 })
        false ∧
    (getAction (action_norm stZeroCount false) false).count = 1 :=
  claim_c3_count_normalized env0 stZeroCount false (by norm_num [getAction, stZeroCount])

theorem op_func_regChoices (env : Env) (op : OpId) (c : OperatorContext)
    (st : VisState) : ((op_func env op c st).2).regChoices = st.regChoices := by
  cases op <;> rfl

theorem csr_regChoices (env : Env) (a : Action) (st : VisState) (cur : Cursor)
    (c : OperatorContext) :
    ((cursor_step_ranges env a st cur c).2.2).regChoices = st.regChoices := by
  unfold cursor_step_ranges
  rcases hmv : a.movement with _ | mv
  · rcases hto : a.textobj with _ | tob
    · by_cases hv : st.mode.isVisual <;> simp [hv]
    · rfl
  · rcases hop : a.op with _ | op
    · by_cases hj : mv.mtype.jump <;>
        simp [hj, window_jumplist_add, window_jumplist_invalidate]
    · by_cases hincl : mv.mtype.inclusive <;> simp [hincl]

/-- C6: during motion iteration in `action_do`, the loop over the
count stops as soon as the motion returns `EPOS` (shown for the first
iteration) or the motion's type has the `IDEMPOTENT` flag (one
application, whatever the count); and when the motion result is
`EPOS`, the range collapses to the starting position and, with no
operator pending, the cursor is left exactly where it started. -/
theorem claim_c6_motion_stops (env : Env) (a : Action) (lw mc : Bool)
    (st : VisState) (cur : Cursor) (mv : Movement) (count : Nat)
    (hc : 1 ≤ count)
    (hmv : a.movement = some mv) (hop : a.op = none)
    (hvis : st.mode.isVisual = false) :
    (mv.move cur.pos = EPOS → motion_loop mv count cur.pos = EPOS) ∧
    (mv.mtype.idempotent = true →
      motion_loop mv count cur.pos = mv.move cur.pos) ∧
    (motion_loop mv a.count.toNat cur.pos = EPOS →
      motion_range mv a.count.toNat cur.pos = (⟨cur.pos, cur.pos⟩, cur.pos) ∧
      (cursor_step env a lw mc st cur).1 = some cur) := by
  obtain ⟨n, rfl⟩ : ∃ n, count = n + 1 := ⟨count - 1, by omega⟩
  refine ⟨?_, ?_, ?_⟩
  · intro h
    simp [motion_loop, h]
  · intro h
    simp [motion_loop, h]
  · intro h
    have hrange : motion_range mv a.count.toNat cur.pos = (⟨cur.pos, cur.pos⟩, cur.pos) := by
      simp [motion_range, h]
    refine ⟨hrange, ?_⟩
    obtain ⟨cid, pos, sel⟩ := cur
    simp [cursor_step, cursor_step_ranges, hmv, hop, hvis, hrange, apply_ite]

/-- C6 witness: a count-1 run of a motion that fails immediately stops
with `EPOS`, collapses the range to the start and leaves the cursor at
the start. -/
theorem claim_c6_witness :
    motion_loop mvFail 1 0 = EPOS ∧
    motion_range mvFail 1 0 = (⟨0, 0⟩, 0) ∧
    (cursor_step env0 stFailingMotion.action true false stFailingMotion
        { cid := 0, pos := 0 }).1 = some { cid := 0, pos := 0 } := by
  have h := claim_c6_motion_stops env0 stFailingMotion.action true false
    stFailingMotion { cid := 0, pos := 0 } mvFail 1 (by decide) rfl rfl rfl
  have hloop : motion_loop mvFail 1 0 = EPOS := h.1 rfl
  exact ⟨hloop, (h.2.2 hloop).1, (h.2.2 hloop).2⟩

/-- C1 counterexample: the claim says the position the cursor occupied
BEFORE a `JUMP` motion is appended to the jumplist.  On the code it is
the DESTINATION that is appended: from a cursor at position 0, a jump
motion to position 5 leaves the mark for 5 — not for the prior
position 0 — in the window's jumplist (`window_jumplist_add(win, pos)`
is called with the post-motion `pos`, line 1343). -/
theorem claim_c1_counterexample :
    stJump.win.cursors = [{ cid := 0, pos := 0 }] ∧
    (action_do env0 stJump false).win.jumplist =
      some { marks := [5], fwdValid := true } ∧
    (5 : Nat) ≠ 0 :=
  ⟨rfl, rfl, by decide⟩

/-- C1 (amended): in `action_do`, for a motion executed without an
operator, when the motion's type has the `JUMP` flag the position
appended to the window's jumplist is the DESTINATION the cursor was
just moved to (the motion-loop result, or the unchanged start when
the motion returned `EPOS`) — not the prior position; when the motion
lacks the `JUMP` flag, the jumplist's forward cursor is invalidated
instead. -/
theorem claim_c1_amended (env : Env) (a : Action) (lw mc : Bool)
    (st : VisState) (cur : Cursor) (mv : Movement)
    (hmv : a.movement = some mv) (hop : a.op = none) :
    (mv.mtype.jump = true →
      ((cursor_step env a lw mc st cur).2).win =
        window_jumplist_add env st.win (motion_range mv a.count.toNat cur.pos).2) ∧
    (mv.mtype.jump = false →
      ((cursor_step env a lw mc st cur).2).win =
        window_jumplist_invalidate st.win) := by
  constructor <;> intro hj <;>
    simp [cursor_step, cursor_step_ranges, hmv, hop, hj]

/-- C1 witness (amended claim): the jump motion of the counterexample
state appends the mark of its destination. -/
theorem claim_c1_witness :
    ((cursor_step env0 stJump.action false false stJump
        { cid := 0, pos := 0 }).2).win =
      window_jumplist_add env0 stJump.win
        (motion_range mvJump stJump.action.count.toNat 0).2 :=
  (claim_c1_amended env0 stJump.action false false stJump { cid := 0, pos := 0 }
      mvJump rfl rfl).1 rfl

/-- C2 counterexample: the claim says `action.reg` is used whenever it
is set.  On the code, with two cursors the per-cursor registers are
used even though `action.reg` is set (the `multiple_cursors` override
of lines 1294–1295 comes after the `action.reg` choice). -/
theorem claim_c2_counterexample :
    stTwoCursors.action.reg = some 3 ∧
    (action_do env0 stTwoCursors false).regChoices =
      [RegisterRef.cursorReg 0, RegisterRef.cursorReg 1] ∧
    RegisterRef.cursorReg 0 ≠ RegisterRef.reg 3 :=
  ⟨rfl, rfl, by decide⟩

/-- C2 (amended): for every cursor processed by `action_do`, the
per-cursor register is used whenever more than one cursor exists —
even if `action.reg` is set; only with a single cursor is `action.reg`
used when set, and the default register otherwise. -/
theorem claim_c2_amended (env : Env) (a : Action) (lw mc : Bool)
    (st : VisState) (cur : Cursor) :
    ((cursor_step env a lw mc st cur).2).regChoices =
      st.regChoices ++
        [if mc then RegisterRef.cursorReg cur.cid
         else match a.reg with
              | some r => RegisterRef.reg r
              | none => RegisterRef.dflt] := by
  unfold cursor_step
  rcases hop : a.op with _ | op <;>
    simp [hop, apply_ite, op_func_regChoices, csr_regChoices, cursor_reg_select]

theorem op_mux_mode (st : VisState) (raw : OpIdRaw) :
    ((op_mux st raw).1).mode = st.mode := by
  cases raw <;> rfl

theorem op_mux_action_op (st : VisState) (raw : OpIdRaw) :
    ((op_mux st raw).1).action.op = st.action.op := by
  cases raw <;> rfl

theorem mode_leave_hook_action (st : VisState) (old new_ : ModeId) :
    (mode_leave_hook st old new_).action = st.action := by
  cases old <;> simp [mode_leave_hook, macro_operator_stop, apply_ite]

theorem mode_enter_hook_action (st : VisState) (new_ old : ModeId) :
    (mode_enter_hook st new_ old).action = st.action := by
  cases new_ <;> simp [mode_enter_hook, macro_operator_record, apply_ite]

theorem mode_set_action (st : VisState) (m : ModeId) :
    (mode_set st m).action = st.action := by
  unfold mode_set
  split
  · rfl
  · simp [mode_enter_hook_action, mode_leave_hook_action, apply_ite]

/-- C4: when `vis_operator` runs outside the visual modes and the
current action's operator is already the operator being set (the
doubled-operator case, `dd`, `yy`, …), the invocation sets the
action's type to `LINEWISE` and issues the implicit `MOVE_LINE_NEXT`
motion — the result is exactly `vis_motion(MOVE_LINE_NEXT)` on the
LINEWISE-typed state, with the action's operator left as it was
rather than set again. -/
theorem claim_c4_doubled_operator (env : Env) (st : VisState) (raw : OpIdRaw)
    (op : OpId)
    (hvis : st.mode.isVisual = false)
    (hid : opid_of_raw (op_mux st raw).2 = some op)
    (hdup : st.action.op = some op)
    (hput : op ≠ .put_after) :
    vis_operator env st raw =
      (true,
        (vis_motion env
          { vis_mode_switch (op_mux st raw).1 .operator with
            action := { (vis_mode_switch (op_mux st raw).1 .operator).action with
                        atype := LINEWISE_T } }
          .line_next .noArg).2) ∧
    (vis_mode_switch (op_mux st raw).1 .operator).action.op = some op := by
  have hmode : ((op_mux st raw).1).mode = st.mode := op_mux_mode st raw
  have haop : ((op_mux st raw).1).action.op = st.action.op := op_mux_action_op st raw
  have hswop : (vis_mode_switch (op_mux st raw).1 .operator).action.op = some op := by
    unfold vis_mode_switch
    rw [mode_set_action, haop, hdup]
  refine ⟨?_, hswop⟩
  simp only [vis_operator, hid, hmode, hvis, hswop, Bool.false_eq_true, if_false,
    if_true, hput, if_neg, ite_true, ite_false]

/-- C4 witness: the second `d` of `dd`, dispatched while the first
`d`'s operator is pending. -/
theorem claim_c4_witness :
    vis_operator env0 stPendingDelete OpIdRaw.delete =
      (true,
        (vis_motion env0
          { vis_mode_switch (op_mux stPendingDelete OpIdRaw.delete).1 .operator with
            action := { (vis_mode_switch (op_mux stPendingDelete OpIdRaw.delete).1
                           .operator).action with
                        atype := LINEWISE_T } }
          .line_next .noArg).2) ∧
    (vis_mode_switch (op_mux stPendingDelete OpIdRaw.delete).1
        .operator).action.op = some OpId.delete :=
  claim_c4_doubled_operator env0 stPendingDelete OpIdRaw.delete OpId.delete
    rfl rfl rfl (by decide)

theorem op_func_actionPrev (env : Env) (op : OpId) (c : OperatorContext)
    (st : VisState) : ((op_func env op c st).2).actionPrev = st.actionPrev := by
  cases op <;> rfl

theorem op_func_action (env : Env) (op : OpId) (c : OperatorContext)
    (st : VisState) : ((op_func env op c st).2).action = st.action := by
  cases op <;> rfl

theorem op_func_macroOp_isSome (env : Env) (op : OpId) (c : OperatorContext)
    (st : VisState) (h : st.macroOp.isSome = true) :
    ((op_func env op c st).2).macroOp.isSome = true := by
  cases op <;> simp [op_func, macro_operator_record, h]

theorem csr_actionPrev (env : Env) (a : Action) (st : VisState) (cur : Cursor)
    (c : OperatorContext) :
    ((cursor_step_ranges env a st cur c).2.2).actionPrev = st.actionPrev := by
  unfold cursor_step_ranges
  rcases hmv : a.movement with _ | mv
  · rcases hto : a.textobj with _ | tob
    · by_cases hv : st.mode.isVisual <;> simp [hv]
    · rfl
  · rcases hop : a.op with _ | op
    · by_cases hj : mv.mtype.jump <;> simp [hj]
    · by_cases hincl : mv.mtype.inclusive <;> simp [hincl]

theorem csr_action (env : Env) (a : Action) (st : VisState) (cur : Cursor)
    (c : OperatorContext) :
    ((cursor_step_ranges env a st cur c).2.2).action = st.action := by
  unfold cursor_step_ranges
  rcases hmv : a.movement with _ | mv
  · rcases hto : a.textobj with _ | tob
    · by_cases hv : st.mode.isVisual <;> simp [hv]
    · rfl
  · rcases hop : a.op with _ | op
    · by_cases hj : mv.mtype.jump <;> simp [hj]
    · by_cases hincl : mv.mtype.inclusive <;> simp [hincl]

theorem csr_macroOp (env : Env) (a : Action) (st : VisState) (cur : Cursor)
    (c : OperatorContext) :
    ((cursor_step_ranges env a st cur c).2.2).macroOp = st.macroOp := by
  unfold cursor_step_ranges
  rcases hmv : a.movement with _ | mv
  · rcases hto : a.textobj with _ | tob
    · by_cases hv : st.mode.isVisual <;> simp [hv]
    · rfl
  · rcases hop : a.op with _ | op
    · by_cases hj : mv.mtype.jump <;> simp [hj]
    · by_cases hincl : mv.mtype.inclusive <;> simp [hincl]

theorem cursor_step_actionPrev (env : Env) (a : Action) (lw mc : Bool)
    (st : VisState) (cur : Cursor) :
    ((cursor_step env a lw mc st cur).2).actionPrev = st.actionPrev := by
  unfold cursor_step
  rcases hop : a.op with _ | op <;>
    simp [hop, apply_ite, op_func_actionPrev, csr_actionPrev]

theorem cursor_step_action (env : Env) (a : Action) (lw mc : Bool)
    (st : VisState) (cur : Cursor) :
    ((cursor_step env a lw mc st cur).2).action = st.action := by
  unfold cursor_step
  rcases hop : a.op with _ | op <;>
    simp [hop, apply_ite, op_func_action, csr_action]

theorem cursor_step_macroOp_isSome (env : Env) (a : Action) (lw mc : Bool)
    (st : VisState) (cur : Cursor) (h : st.macroOp.isSome = true) :
    ((cursor_step env a lw mc st cur).2).macroOp.isSome = true := by
  unfold cursor_step
  rcases hop : a.op with _ | op
  · simp [hop, apply_ite, csr_macroOp, h]
  · simp [hop, apply_ite, op_func_macroOp_isSome, csr_macroOp, h]

theorem cursors_fold_actionPrev (env : Env) (a : Action) (lw mc : Bool)
    (cs : List Cursor) : ∀ st : VisState,
    ((cursors_fold env a lw mc st cs).1).actionPrev = st.actionPrev := by
  induction cs with
  | nil => intro st; rfl
  | cons c rest ih =>
    intro st
    simp [cursors_fold, ih, cursor_step_actionPrev]

theorem cursors_fold_action (env : Env) (a : Action) (lw mc : Bool)
    (cs : List Cursor) : ∀ st : VisState,
    ((cursors_fold env a lw mc st cs).1).action = st.action := by
  induction cs with
  | nil => intro st; rfl
  | cons c rest ih =>
    intro st
    simp [cursors_fold, ih, cursor_step_action]

theorem cursors_fold_macroOp_isSome (env : Env) (a : Action) (lw mc : Bool)
    (cs : List Cursor) : ∀ st : VisState, st.macroOp.isSome = true →
    ((cursors_fold env a lw mc st cs).1).macroOp.isSome = true := by
  induction cs with
  | nil => intro st h; exact h
  | cons c rest ih =>
    intro st h
    simp only [cursors_fold]
    exact ih _ (cursor_step_macroOp_isSome env a lw mc st c h)

theorem action_do_loop_actionPrev (env : Env) (a : Action) (lw mc : Bool)
    (st : VisState) :
    ((action_do_loop env a lw mc st).actionPrev) = st.actionPrev := by
  simp [action_do_loop, cursors_fold_actionPrev]

theorem action_do_loop_action (env : Env) (a : Action) (lw mc : Bool)
    (st : VisState) :
    ((action_do_loop env a lw mc st).action) = st.action := by
  simp [action_do_loop, cursors_fold_action]

theorem action_do_loop_macroOp_isSome (env : Env) (a : Action) (lw mc : Bool)
    (st : VisState) (h : st.macroOp.isSome = true) :
    ((action_do_loop env a lw mc st).macroOp.isSome) = true := by
  simp only [action_do_loop]
  exact cursors_fold_macroOp_isSome env a lw mc st.win.cursors st h

theorem mode_leave_hook_actionPrev (st : VisState) (old new_ : ModeId) :
    (mode_leave_hook st old new_).actionPrev = st.actionPrev := by
  cases old <;> simp [mode_leave_hook, macro_operator_stop, apply_ite]

theorem mode_leave_hook_macroOp (st : VisState) (old new_ : ModeId)
    (h : new_ ≠ .normal) :
    (mode_leave_hook st old new_).macroOp = st.macroOp := by
  cases old <;> simp [mode_leave_hook, macro_operator_stop, apply_ite, h]

theorem mode_enter_hook_actionPrev (st : VisState) (new_ old : ModeId)
    (h : st.macroOp.isSome = true) :
    (mode_enter_hook st new_ old).actionPrev = st.actionPrev := by
  have hne : st.macroOp ≠ none := Option.ne_none_iff_isSome.mpr h
  cases new_ <;> simp [mode_enter_hook, macro_operator_record, apply_ite, hne]

/-- While the operator macro is active, switching modes never touches
`action_prev`: the INSERT/REPLACE enter hooks, the only ones that
write it, are guarded by `!vis->macro_operator`. -/
theorem mode_set_actionPrev (st : VisState) (m : ModeId)
    (h : st.macroOp.isSome = true) :
    (mode_set st m).actionPrev = st.actionPrev := by
  unfold mode_set
  split
  · rfl
  · by_cases hm : m = ModeId.normal
    · subst hm
      have hid : ∀ (s : VisState) (old : ModeId),
          mode_enter_hook s .normal old = s := fun s old => rfl
      rw [hid]
      simp [mode_leave_hook_actionPrev, apply_ite]
    · rw [mode_enter_hook_actionPrev]
      · simp [mode_leave_hook_actionPrev, apply_ite]
      · simp [apply_ite, mode_leave_hook_macroOp st st.mode m hm, h]

theorem action_do_switch_actionPrev (st : VisState) (op : OpId)
    (h : st.macroOp.isSome = true) :
    (action_do_switch st op).actionPrev = st.actionPrev := by
  unfold action_do_switch
  split_ifs with hA hB hC hD
  · exact mode_set_actionPrev st _ h
  · exact mode_set_actionPrev st _ h
  · exact mode_set_actionPrev st _ h
  · exact mode_set_actionPrev st _ h
  · rfl

theorem action_do_finish_actionPrev (env : Env) (st : VisState)
    (h : (getAction st false).op = none ∨ st.macroOp.isSome = true) :
    (action_do_finish env st false).actionPrev = st.actionPrev := by
  simp only [action_do_finish]
  rcases hop : (getAction st false).op with _ | op
  · simp only [hop]
  · have hsome : st.macroOp.isSome = true := by
      rcases h with h | h
      · rw [hop] at h
        exact absurd h (by simp)
      · exact h
    simp only [hop]
    split
    · rw [action_do_switch_actionPrev _ op (by simp [setAction, hsome])]
      simp [setAction]
    · rw [action_do_switch_actionPrev _ op hsome]

theorem action_norm_macroOp (st : VisState) (p : Bool) :
    (action_norm st p).macroOp = st.macroOp := by
  simp only [action_norm]
  split
  · cases p <;> simp [setAction]
  · rfl

theorem action_norm_actionPrev (st : VisState) :
    (action_norm st false).actionPrev = st.actionPrev := by
  simp only [action_norm]
  split
  · simp [setAction]
  · rfl

/-- C5: after `action_do` runs on the current action (not
`action_prev`), the current `Action` is zeroed; and if and only if the
action was repeatable — it had an operator and no operator macro was
active when `action_do` started — `action_prev` holds a copy of the
executed action with the operator macro attached (`a->macro` set to
`vis->macro_operator` when it carried none); a non-repeatable run
leaves `action_prev` untouched. -/
theorem claim_c5_action_reset_and_repeat (env : Env) (st : VisState) :
    (action_do env st false).action = action_reset ∧
    ((getAction (action_norm st false) false).op.isSome = true ∧
        st.macroOp = none →
      (action_do env st false).actionPrev =
        attach_macro (action_do_mid env (action_norm st false) false).action
          (action_do_mid env (action_norm st false) false).macroOp) ∧
    (¬ ((getAction (action_norm st false) false).op.isSome = true ∧
        st.macroOp = none) →
      (action_do env st false).actionPrev = st.actionPrev) := by
  refine ⟨?_, ?_, ?_⟩
  · show (action_do_core env (action_norm st false) false).action = action_reset
    unfold action_do_core
    simp [apply_ite]
  · rintro ⟨h1, h2⟩
    have hrep : ((getAction (action_norm st false) false).op.isSome &&
        (action_norm st false).macroOp.isNone) = true := by
      rw [h1, action_norm_macroOp, h2]
      rfl
    show (action_do_core env (action_norm st false) false).actionPrev = _
    unfold action_do_core
    simp only [hrep, Bool.false_eq_true, if_false, if_true, ite_true, ite_false,
      Bool.true_eq_false]
  · intro hn
    have hrep : ((getAction (action_norm st false) false).op.isSome &&
        (action_norm st false).macroOp.isNone) = false := by
      rw [action_norm_macroOp]
      rcases Decidable.em ((getAction (action_norm st false) false).op.isSome = true)
        with h1 | h1
      · have h2 : st.macroOp ≠ none := fun hc => hn ⟨h1, hc⟩
        simp [h1, Option.isNone_eq_false_iff, Option.isSome_iff_ne_none, h2]
      · simp [Bool.not_eq_true] at h1
        simp [h1]
    have hmidPrev : (action_do_mid env (action_norm st false) false).actionPrev =
        (action_norm st false).actionPrev := by
      unfold action_do_mid
      rw [action_do_finish_actionPrev]
      · rw [action_do_loop_actionPrev]
      · rcases Decidable.em
          ((getAction (action_norm st false) false).op.isSome = true) with h1 | h1
        · right
          apply action_do_loop_macroOp_isSome
          have h2 : st.macroOp ≠ none := fun hc => hn ⟨h1, hc⟩
          rw [action_norm_macroOp]
          exact Option.isSome_iff_ne_none.mpr h2
        · left
          have h2 : (getAction (action_norm st false) false).op = none := by
            simpa [Option.not_isSome_iff_eq_none] using h1
          show (action_do_loop env _ _ _ (action_norm st false)).action.op = none
          rw [action_do_loop_action]
          exact h2
    show (action_do_core env (action_norm st false) false).actionPrev = st.actionPrev
    unfold action_do_core
    simp only [hrep, Bool.false_eq_true, if_false, ite_false, Bool.true_eq_false]
    rw [hmidPrev, action_norm_actionPrev]

/-- C5 witness: a repeatable yank — the current action is zeroed and
`action_prev` receives the macro-attached copy. -/
theorem claim_c5_witness :
    (action_do env0 stRepeatable false).action = action_reset ∧
    (action_do env0 stRepeatable false).actionPrev =
      attach_macro (action_do_mid env0 (action_norm stRepeatable false) false).action
        (action_do_mid env0 (action_norm stRepeatable false) false).macroOp := by
  have h := claim_c5_action_reset_and_repeat env0 stRepeatable
  exact ⟨h.1, h.2.1 ⟨rfl, rfl⟩⟩

end VisCore
